import Mathlib

/- Verification development for a calculator application built around a
restricted arithmetic-expression evaluator (`safe_eval` in `app.py`) and the
surrounding session-state glue (`evaluate`, history handling).

Modelling conventions:
* Host machine floats are modelled as exact rationals (`Rat`).  Float
  literals and float arithmetic are represented by their exact rational
  values; rounding to 53-bit precision is not modelled because no property
  below depends on a rounded value.  Transcendental library functions
  (sin, exp, log, ...) are modelled with their exact domain checks (which
  exceptions they raise, and when) together with a rational approximation
  of their in-domain value; no property below inspects those approximate
  values.  `math.sqrt` is modelled by a scaled integer square root, which
  is exact on perfect squares.
* Host exceptions that `safe_eval` never catches (ZeroDivisionError,
  ValueError, OverflowError, TypeError, RecursionError) are modelled by
  `HostE`; failures the evaluator itself raises as `SafeEvalError` carry
  their message string in the `PyExc.safeEvalError` constructor.
* The module-level allow-list dictionaries (ALLOWED_BINOPS,
  ALLOWED_UNARYOPS, SAFE_NAMES) are mutable host dictionaries; they are
  modelled as an explicit `Tables` value threaded through the evaluator so
  that the absence of mutation is a provable statement rather than an
  artefact of the embedding.
* `ast.parse(expr, mode="eval")` is modelled by a tokenizer and
  recursive-descent parser for the fragment of the host expression grammar
  exercised by this program: numeric literals (decimal, hex/octal/binary,
  floats with exponents), string literals, identifiers and keyword
  constants, the binary operators + - * / // % ** << >> | & ^ @, unary
  + - ~ not, boolean and/or, comparisons, ternary if/else, lambda,
  parenthesised and tuple/list/dict/set displays, calls with positional,
  keyword, *star and **double-star arguments, attribute access and
  subscripting.  Inputs outside this fragment (for example statements such
  as assignment) are parse errors, as they are for the host parser in
  eval mode. -/

--------------------------------------------------------------------------------
-- Exceptions and values
--------------------------------------------------------------------------------

/-- Host exceptions that can escape `safe_eval` uncaught. -/
inductive HostE where
  | zeroDivisionError (msg : String)
  | valueError (msg : String)
  | typeError (msg : String)
  | overflowError (msg : String)
  | recursionError (msg : String)
deriving DecidableEq

/-- An exception escaping a call to `safe_eval`: either the evaluator's own
`SafeEvalError` (identified by its message) or an uncaught host exception. -/
inductive PyExc where
  | safeEvalError (msg : String)
  | host (e : HostE)
deriving DecidableEq

/-- Runtime constant embedded in an `ast.Constant` node. -/
inductive PyConst where
  | intC (n : Int)
  | floatC (q : Rat)
  | boolC (b : Bool)
  | strC (s : String)
  | noneC
deriving DecidableEq

/-- Runtime value flowing through `_eval`.  Complex values arise only from
the power operator; their components never influence control flow in this
program (every arithmetic op maps complex operands to a complex result and
`float()` rejects any complex), so they are not carried. -/
inductive PyVal where
  | int (n : Int)
  | float (q : Rat)
  | boolV (b : Bool)
  | complexV
  | strV (s : String)
deriving DecidableEq

/-- Numeric view of a value: host `bool` is an `int` subclass, so `True`
and `False` behave as the integers 1 and 0 in arithmetic. -/
inductive NumV where
  | iv (n : Int)
  | fv (q : Rat)
  | cv
deriving DecidableEq

def numOf : PyVal → Option NumV
  | .int n => some (.iv n)
  | .boolV b => some (.iv (if b then 1 else 0))
  | .float q => some (.fv q)
  | .complexV => some .cv
  | .strV _ => none

def NumV.toRat : NumV → Rat
  | .iv n => (n : Rat)
  | .fv q => q
  | .cv => 0

def NumV.isZero : NumV → Bool
  | .iv n => n = 0
  | .fv q => q = 0
  | .cv => false

def NumV.isIntKind : NumV → Bool
  | .iv _ => true
  | _ => false

--------------------------------------------------------------------------------
-- Numeric primitives
--------------------------------------------------------------------------------

/-- Structural rational power with a natural exponent. -/
def ratNpow (q : Rat) : Nat → Rat
  | 0 => 1
  | Nat.succ n => ratNpow q n * q

/-- Rational power with an integer exponent (zero base never reaches the
negative branch in this program). -/
def ratZpow (q : Rat) (z : Int) : Rat :=
  if 0 ≤ z then ratNpow q z.toNat else 1 / ratNpow q (-z).toNat

def irootAux (d n : Nat) : Nat → Nat → Nat → Nat
  | 0, lo, _ => lo
  | Nat.succ f, lo, hi =>
    if hi ≤ lo + 1 then lo
    else
      let mid := (lo + hi) / 2
      if mid ^ d ≤ n then irootAux d n f mid hi else irootAux d n f lo mid

/-- Floor d-th root of a natural number, by binary search (the fuel bounds
the argument at 2^8191, far beyond anything a property below evaluates). -/
def iroot (d n : Nat) : Nat :=
  irootAux d n 8192 0 (n + 1)

/-- Fueled binary logarithm (same fuel bound as `iroot`). -/
def natLog2F : Nat → Nat → Nat
  | 0, _ => 0
  | Nat.succ f, n => if n ≤ 1 then 0 else natLog2F f (n / 2) + 1

def natLog2 (n : Nat) : Nat := natLog2F 8192 n

/-- Floor square root of a rational, carried out at 53 extra bits of
precision: exact on perfect squares (for example `ratSqrtApprox 16 = 4`),
an under-approximation of the correctly rounded host result otherwise. -/
def ratSqrtApprox (q : Rat) : Rat :=
  mkRat (iroot 2 (q.num.toNat * q.den * 2 ^ 106)) (q.den * 2 ^ 53)

/-- Rational approximation of `b ^ e` for positive base `b` and a
non-integral rational exponent `e` (value is never inspected by any
property in this file). -/
def ratPowApprox (b e : Rat) : Rat :=
  let x : Rat := ratZpow b e.num
  mkRat (iroot e.den x.num.toNat) (iroot e.den x.den)

/-- Round half to even, the host rounding used by builtin `round`. -/
def roundHalfEven (q : Rat) : Int :=
  let f : Int := q.floor
  let frac : Rat := q - (f : Rat)
  if frac < 1/2 then f
  else if frac > 1/2 then f + 1
  else if f % 2 = 0 then f else f + 1

--------------------------------------------------------------------------------
-- Binary and unary operator semantics (the values of ALLOWED_BINOPS /
-- ALLOWED_UNARYOPS: operator.add, operator.sub, ..., operator.pos,
-- operator.neg applied to the numeric types reachable in this program)
--------------------------------------------------------------------------------

def unsupportedOperand (sym : String) : HostE :=
  .typeError ("unsupported operand type(s) for " ++ sym)

def arithCombine (f : Int → Int → Int) (g : Rat → Rat → Rat) :
    NumV → NumV → PyVal
  | .iv a, .iv b => .int (f a b)
  | .cv, _ => .complexV
  | _, .cv => .complexV
  | a, b => .float (g a.toRat b.toRat)

def pyAdd (v w : PyVal) : Except HostE PyVal :=
  match numOf v, numOf w with
  | some a, some b => .ok (arithCombine (· + ·) (· + ·) a b)
  | _, _ => .error (unsupportedOperand "+")

def pySub (v w : PyVal) : Except HostE PyVal :=
  match numOf v, numOf w with
  | some a, some b => .ok (arithCombine (· - ·) (· - ·) a b)
  | _, _ => .error (unsupportedOperand "-")

def pyMul (v w : PyVal) : Except HostE PyVal :=
  match numOf v, numOf w with
  | some a, some b => .ok (arithCombine (· * ·) (· * ·) a b)
  | _, _ => .error (unsupportedOperand "*")

/-- True division.  Dividing by (integer or float) zero raises
ZeroDivisionError; otherwise the result is a float (complex if an operand
is complex). -/
def pyDiv (v w : PyVal) : Except HostE PyVal :=
  match numOf v, numOf w with
  | some .cv, some _ => .ok .complexV
  | some _, some .cv => .ok .complexV
  | some a, some b =>
    if b.isZero then
      if a.isIntKind && b.isIntKind then
        .error (.zeroDivisionError "division by zero")
      else .error (.zeroDivisionError "float division by zero")
    else .ok (.float (a.toRat / b.toRat))
  | _, _ => .error (unsupportedOperand "/")

/-- Floor division: `Int.fdiv` for integers, float floor otherwise. -/
def pyFloorDiv (v w : PyVal) : Except HostE PyVal :=
  match numOf v, numOf w with
  | some .cv, some _ => .error (unsupportedOperand "//")
  | some _, some .cv => .error (unsupportedOperand "//")
  | some a, some b =>
    if b.isZero then
      if a.isIntKind && b.isIntKind then
        .error (.zeroDivisionError "integer division or modulo by zero")
      else .error (.zeroDivisionError "float floor division by zero")
    else
      match a, b with
      | .iv x, .iv y => .ok (.int (Int.fdiv x y))
      | _, _ => .ok (.float (((a.toRat / b.toRat).floor : Int) : Rat))
  | _, _ => .error (unsupportedOperand "//")

/-- Modulo with the sign convention of floor division (result takes the
sign of the divisor), matching the host `%`. -/
def pyMod (v w : PyVal) : Except HostE PyVal :=
  match numOf v, numOf w with
  | some .cv, some _ => .error (unsupportedOperand "%")
  | some _, some .cv => .error (unsupportedOperand "%")
  | some a, some b =>
    if b.isZero then
      if a.isIntKind && b.isIntKind then
        .error (.zeroDivisionError "integer division or modulo by zero")
      else .error (.zeroDivisionError "float modulo")
    else
      match a, b with
      | .iv x, .iv y => .ok (.int (Int.fmod x y))
      | _, _ =>
        .ok (.float (a.toRat - b.toRat * (((a.toRat / b.toRat).floor : Int) : Rat)))
  | _, _ => .error (unsupportedOperand "%")

/-- Power.  Integer base and non-negative integer exponent give an exact
(arbitrary precision) integer; a negative integer exponent gives a float;
a negative base with a non-integral exponent becomes complex; zero raised
to a negative power raises ZeroDivisionError. -/
def pyPow (v w : PyVal) : Except HostE PyVal :=
  match numOf v, numOf w with
  | some .cv, some _ => .ok .complexV
  | some _, some .cv => .ok .complexV
  | some (.iv a), some (.iv b) =>
    if 0 ≤ b then .ok (.int (a ^ b.toNat))
    else if a = 0 then
      .error (.zeroDivisionError "0.0 cannot be raised to a negative power")
    else .ok (.float (ratZpow (a : Rat) b))
  | some a, some b =>
    let x := a.toRat
    let e := b.toRat
    if x = 0 then
      if e < 0 then
        .error (.zeroDivisionError "0.0 cannot be raised to a negative power")
      else if e = 0 then .ok (.float 1) else .ok (.float 0)
    else if x < 0 && e.den ≠ 1 then .ok .complexV
    else if e.den = 1 then .ok (.float (ratZpow x e.num))
    else .ok (.float (ratPowApprox x e))
  | _, _ => .error (unsupportedOperand "** or pow()")

def pyPos (v : PyVal) : Except HostE PyVal :=
  match numOf v with
  | some (.iv n) => .ok (.int n)
  | some (.fv q) => .ok (.float q)
  | some .cv => .ok .complexV
  | none => .error (.typeError "bad operand type for unary +")

def pyNeg (v : PyVal) : Except HostE PyVal :=
  match numOf v with
  | some (.iv n) => .ok (.int (-n))
  | some (.fv q) => .ok (.float (-q))
  | some .cv => .ok .complexV
  | none => .error (.typeError "bad operand type for unary -")

--------------------------------------------------------------------------------
-- The math-library and builtin functions stored in SAFE_NAMES
--------------------------------------------------------------------------------

/-- Keyword-argument dictionary passed to a called function. -/
abbrev KwArgs := List (String × PyVal)

/-- Signature of a callable table entry: positional arguments plus keyword
arguments, returning a value or raising a host exception.  Host library
functions cannot raise `SafeEvalError`, which the return type records. -/
abbrev TableFn := List PyVal → KwArgs → Except HostE PyVal

/-- Argument conversion performed by the math-module functions: accepts
int, bool and float, rejects complex and str with TypeError. -/
def asFloatArg : PyVal → Except HostE Rat
  | .int n => .ok (n : Rat)
  | .boolV b => .ok (if b then 1 else 0)
  | .float q => .ok q
  | .complexV => .error (.typeError "must be real number, not complex")
  | .strV _ => .error (.typeError "must be real number, not str")

/-- Wrapper for a 1-argument math-module function: positional-only, no
keyword arguments accepted. -/
def mathUnary (name : String) (core : Rat → Except HostE PyVal) : TableFn :=
  fun args kwargs =>
    match kwargs with
    | _ :: _ => .error (.typeError (name ++ "() takes no keyword arguments"))
    | [] =>
      match args with
      | [v] => do core (← asFloatArg v)
      | _ =>
        .error (.typeError (name ++ "() takes exactly one argument"))

def mathSqrt : TableFn :=
  mathUnary "sqrt" fun x =>
    if x < 0 then .error (.valueError "math domain error")
    else .ok (.float (ratSqrtApprox x))

/-- Rational stand-in for the host natural logarithm; only used in-domain,
never inspected by any property below. -/
def lnApprox (x : Rat) : Rat :=
  (natLog2 x.num.toNat : Rat) - (natLog2 x.den : Rat)

/-- The math.log function: `log(x)` is the natural log, `log(x, base)` is
the log in the given base.  Non-positive arguments raise ValueError; base 1
makes the host divide by log(1) = 0.0 and raise ZeroDivisionError. -/
def mathLog : TableFn := fun args kwargs =>
  match kwargs with
  | _ :: _ => .error (.typeError "log() takes no keyword arguments")
  | [] =>
    match args with
    | [v] => do
      let x ← asFloatArg v
      if x ≤ 0 then .error (.valueError "math domain error")
      else .ok (.float (lnApprox x))
    | [v, w] => do
      let x ← asFloatArg v
      let b ← asFloatArg w
      if x ≤ 0 || b ≤ 0 then .error (.valueError "math domain error")
      else if b = 1 then .error (.zeroDivisionError "float division by zero")
      else .ok (.float (lnApprox x / lnApprox b))
    | _ => .error (.typeError "log() takes at most 2 arguments")

def mathLog10 : TableFn :=
  mathUnary "log10" fun x =>
    if x ≤ 0 then .error (.valueError "math domain error")
    else .ok (.float (lnApprox x))

def mathExp : TableFn :=
  mathUnary "exp" fun x =>
    if 710 ≤ x then .error (.overflowError "math range error")
    else .ok (.float (1 + x))

def mathSin : TableFn := mathUnary "sin" fun x => .ok (.float (x / (1 + x * x)))

def mathCos : TableFn := mathUnary "cos" fun x => .ok (.float (1 / (1 + x * x)))

def mathTan : TableFn := mathUnary "tan" fun x => .ok (.float x)

def mathAsin : TableFn :=
  mathUnary "asin" fun x =>
    if x < -1 || 1 < x then .error (.valueError "math domain error")
    else .ok (.float x)

def mathAcos : TableFn :=
  mathUnary "acos" fun x =>
    if x < -1 || 1 < x then .error (.valueError "math domain error")
    else .ok (.float (1 - x))

def mathAtan : TableFn := mathUnary "atan" fun x => .ok (.float (x / (1 + x * x)))

/-- The double nearest pi, as an exact rational: math.pi. -/
def piFloat : Rat := mkRat 884279719003555 (2 ^ 48)

/-- The double nearest e, as an exact rational: math.e. -/
def eFloat : Rat := mkRat 6121026514868073 (2 ^ 51)

/-- The double nearest tau = 2*pi, as an exact rational: math.tau. -/
def tauFloat : Rat := mkRat 884279719003555 (2 ^ 47)

def mathDegrees : TableFn :=
  mathUnary "degrees" fun x => .ok (.float (x * 180 / piFloat))

def mathRadians : TableFn :=
  mathUnary "radians" fun x => .ok (.float (x * piFloat / 180))

/-- math.factorial: accepts an integer (bool counts as an integer), raises
ValueError on negatives and TypeError on floats and other types. -/
def mathFactorial : TableFn := fun args kwargs =>
  match kwargs with
  | _ :: _ => .error (.typeError "factorial() takes no keyword arguments")
  | [] =>
    match args with
    | [.int n] =>
      if n < 0 then
        .error (.valueError "factorial() not defined for negative values")
      else .ok (.int (Nat.factorial n.toNat))
    | [.boolV b] => .ok (.int (Nat.factorial (if b then 1 else 0)))
    | [.float _] =>
      .error (.typeError "\x27float\x27 object cannot be interpreted as an integer")
    | [_] =>
      .error (.typeError "factorial() argument must be an integer")
    | _ => .error (.typeError "factorial() takes exactly one argument")

def mathFloor : TableFn := fun args kwargs =>
  match kwargs with
  | _ :: _ => .error (.typeError "floor() takes no keyword arguments")
  | [] =>
    match args with
    | [.int n] => .ok (.int n)
    | [.boolV b] => .ok (.int (if b then 1 else 0))
    | [.float q] => .ok (.int q.floor)
    | [_] => .error (.typeError "must be real number, not complex")
    | _ => .error (.typeError "floor() takes exactly one argument")

def mathCeil : TableFn := fun args kwargs =>
  match kwargs with
  | _ :: _ => .error (.typeError "ceil() takes no keyword arguments")
  | [] =>
    match args with
    | [.int n] => .ok (.int n)
    | [.boolV b] => .ok (.int (if b then 1 else 0))
    | [.float q] => .ok (.int q.ceil)
    | [_] => .error (.typeError "must be real number, not complex")
    | _ => .error (.typeError "ceil() takes exactly one argument")

/-- Builtin abs: int for ints and bools, float for floats, float magnitude
for complex (the magnitude itself is a nominal value here, as complex
component values are not carried). -/
def builtinAbs : TableFn := fun args kwargs =>
  match kwargs with
  | _ :: _ => .error (.typeError "abs() takes no keyword arguments")
  | [] =>
    match args with
    | [.int n] => .ok (.int (Int.natAbs n))
    | [.boolV b] => .ok (.int (if b then 1 else 0))
    | [.float q] => .ok (.float (abs q))
    | [.complexV] => .ok (.float 0)
    | [.strV _] => .error (.typeError "bad operand type for abs()")
    | _ => .error (.typeError "abs() takes exactly one argument")

/-- Round a rational to `n` decimal digits, half to even. -/
def roundToDigits (q : Rat) (n : Int) : Rat :=
  if 0 ≤ n then
    mkRat (roundHalfEven (q * ratNpow 10 n.toNat)) (10 ^ n.toNat)
  else
    mkRat (roundHalfEven (q / ratNpow 10 (-n).toNat) * (10 : Int) ^ (-n).toNat) 1

/-- Builtin round: one argument rounds to an int (half to even); a second
positional argument or the `ndigits` keyword rounds to that many decimal
digits, returning a float for float input and an int for int input. -/
def builtinRound : TableFn := fun args kwargs =>
  let ndigitsOf : PyVal → Except HostE (Option Int) := fun v =>
    match v with
    | .int n => .ok (some n)
    | .boolV b => .ok (some (if b then 1 else 0))
    | _ => .error (.typeError "ndigits must be an integer")
  let run : PyVal → Option Int → Except HostE PyVal := fun x nd =>
    match x, nd with
    | .int n, none => .ok (.int n)
    | .int n, some d => .ok (.int (roundToDigits (n : Rat) d).num)
    | .boolV b, none => .ok (.int (if b then 1 else 0))
    | .boolV b, some _ => .ok (.int (if b then 1 else 0))
    | .float q, none => .ok (.int (roundHalfEven q))
    | .float q, some d => .ok (.float (roundToDigits q d))
    | _, _ => .error (.typeError "type does not define __round__ method")
  match args, kwargs with
  | [x], [] => run x none
  | [x, d], [] => do run x (← ndigitsOf d)
  | [x], [(k, d)] =>
    if k = "ndigits" then do run x (← ndigitsOf d)
    else .error (.typeError "round() got an unexpected keyword argument")
  | _, _ => .error (.typeError "round() takes 1 or 2 arguments")

--------------------------------------------------------------------------------
-- Allow-list tables
--------------------------------------------------------------------------------

/-- Binary operator node kinds produced by the host parser for this
grammar fragment (ast.Add, ast.Sub, ...). -/
inductive BinK where
  | add | sub | mult | div | floorDiv | mod | pow
  | lshift | rshift | bitOr | bitXor | bitAnd | matMult
deriving DecidableEq

/-- Unary operator node kinds (ast.UAdd, ast.USub, ast.Invert, ast.Not). -/
inductive UnK where
  | uAdd | uSub | invert | notOp
deriving DecidableEq

/-- A SAFE_NAMES entry: a non-callable numeric constant, or a callable. -/
inductive SafeName where
  | const (v : PyVal)
  | fn (f : TableFn)

/-- The three module-level allow-list dictionaries, as one explicit value
threaded through the evaluator. -/
structure Tables where
  binops : List (BinK × (PyVal → PyVal → Except HostE PyVal))
  unops : List (UnK × (PyVal → Except HostE PyVal))
  names : List (String × SafeName)

/-- ALLOWED_BINOPS: the seven permitted binary operators and their
operator-module functions. -/
def allowedBinops : List (BinK × (PyVal → PyVal → Except HostE PyVal)) :=
  [(.add, pyAdd), (.sub, pySub), (.mult, pyMul), (.div, pyDiv),
   (.floorDiv, pyFloorDiv), (.mod, pyMod), (.pow, pyPow)]

/-- ALLOWED_UNARYOPS: unary plus and unary minus. -/
def allowedUnaryops : List (UnK × (PyVal → Except HostE PyVal)) :=
  [(.uAdd, pyPos), (.uSub, pyNeg)]

/-- SAFE_NAMES: constants pi, e, tau and the allow-listed functions. -/
def safeNames : List (String × SafeName) :=
  [("pi", .const (.float piFloat)),
   ("e", .const (.float eFloat)),
   ("tau", .const (.float tauFloat)),
   ("abs", .fn builtinAbs),
   ("round", .fn builtinRound),
   ("sqrt", .fn mathSqrt),
   ("log", .fn mathLog),
   ("log10", .fn mathLog10),
   ("ln", .fn mathLog),
   ("exp", .fn mathExp),
   ("sin", .fn mathSin),
   ("cos", .fn mathCos),
   ("tan", .fn mathTan),
   ("asin", .fn mathAsin),
   ("acos", .fn mathAcos),
   ("atan", .fn mathAtan),
   ("degrees", .fn mathDegrees),
   ("radians", .fn mathRadians),
   ("factorial", .fn mathFactorial),
   ("floor", .fn mathFloor),
   ("ceil", .fn mathCeil)]

/-- The process-wide tables as initialised at module load. -/
def pyTables : Tables :=
  { binops := allowedBinops, unops := allowedUnaryops, names := safeNames }

--------------------------------------------------------------------------------
-- Abstract syntax (the ast node kinds reachable through mode="eval"
-- parsing of this grammar fragment)
--------------------------------------------------------------------------------

inductive PyAst where
  | const (c : PyConst)
  | binOp (k : BinK) (l r : PyAst)
  | unaryOp (k : UnK) (e : PyAst)
  | call (fn : PyAst) (args : List PyAst) (kws : List (Option String × PyAst))
  | name (id : String)
  | tupleE (elts : List PyAst)
  | listE (elts : List PyAst)
  | dictE (pairs : List (PyAst × PyAst))
  | setE (elts : List PyAst)
  | compare (l : PyAst) (rest : List PyAst)
  | boolOpE (l r : PyAst)
  | lambdaE (body : PyAst)
  | attribute (v : PyAst) (attr : String)
  | subscript (v i : PyAst)
  | starred (v : PyAst)
  | ifExp (c t e : PyAst)

--------------------------------------------------------------------------------
-- The tree-walking evaluator `_eval`
--------------------------------------------------------------------------------

/-- Result of one evaluator step: the value or exception, together with
the (unchanged, as proved below) tables. -/
abbrev EvalRes (α : Type) := Except PyExc α × Tables

/-- Evaluate a list of expressions left to right (the list comprehension
over `n.args`), stopping at the first exception. -/
def evalListWith (ev : Tables → PyAst → EvalRes PyVal) :
    Tables → List PyAst → EvalRes (List PyVal)
  | t, [] => (.ok [], t)
  | t, a :: rest =>
    match ev t a with
    | (.error e, t2) => (.error e, t2)
    | (.ok v, t2) =>
      match evalListWith ev t2 rest with
      | (.error e, t3) => (.error e, t3)
      | (.ok vs, t3) => (.ok (v :: vs), t3)

/-- Evaluate the keyword arguments of a call: the dict comprehension
`{kw.arg: _eval(kw.value) for kw in n.keywords if kw.arg is not None}`.
A keyword whose `arg` is `None` (the `**expr` form) is filtered out before
its value expression is evaluated, so that expression is never evaluated
and never rejected. -/
def evalKwsWith (ev : Tables → PyAst → EvalRes PyVal) :
    Tables → List (Option String × PyAst) → EvalRes KwArgs
  | t, [] => (.ok [], t)
  | t, (none, _) :: rest => evalKwsWith ev t rest
  | t, (some k, a) :: rest =>
    match ev t a with
    | (.error e, t2) => (.error e, t2)
    | (.ok v, t2) =>
      match evalKwsWith ev t2 rest with
      | (.error e, t3) => (.error e, t3)
      | (.ok kvs, t3) => (.ok ((k, v) :: kvs), t3)

/-- The recursive `_eval` over the syntax tree.  `fuel` models the host
recursion limit (exceeding it raises RecursionError); `safe_eval` below
always supplies fuel exceeding any tree depth its parser can produce, so
the fuel branch is unreachable from the public entry point. -/
def evalAst : Nat → Tables → PyAst → EvalRes PyVal
  | 0, t, _ =>
    (.error (.host (.recursionError "maximum recursion depth exceeded")), t)
  | Nat.succ fuel, t, a =>
    match a with
    | .const c =>
      match c with
      | .intC n => (.ok (.int n), t)
      | .floatC q => (.ok (.float q), t)
      | .boolC b => (.ok (.boolV b), t)
      | _ => (.error (.safeEvalError "Only numeric constants are allowed."), t)
    | .binOp k l r =>
      match t.binops.lookup k with
      | none => (.error (.safeEvalError "Operator not allowed."), t)
      | some f =>
        match evalAst fuel t l with
        | (.error e, t2) => (.error e, t2)
        | (.ok lv, t2) =>
          match evalAst fuel t2 r with
          | (.error e, t3) => (.error e, t3)
          | (.ok rv, t3) =>
            match f lv rv with
            | .ok v => (.ok v, t3)
            | .error e => (.error (.host e), t3)
    | .unaryOp k e =>
      match t.unops.lookup k with
      | none => (.error (.safeEvalError "Unary operator not allowed."), t)
      | some f =>
        match evalAst fuel t e with
        | (.error ex, t2) => (.error ex, t2)
        | (.ok v, t2) =>
          match f v with
          | .ok w => (.ok w, t2)
          | .error ex => (.error (.host ex), t2)
    | .call fn args kws =>
      match fn with
      | .name funcName =>
        match t.names.lookup funcName with
        | some (.fn f) =>
          match evalListWith (fun t a => evalAst fuel t a) t args with
          | (.error e, t2) => (.error e, t2)
          | (.ok argVals, t2) =>
            match evalKwsWith (fun t a => evalAst fuel t a) t2 kws with
            | (.error e, t3) => (.error e, t3)
            | (.ok kwVals, t3) =>
              match f argVals kwVals with
              | .ok v => (.ok v, t3)
              | .error e => (.error (.host e), t3)
        | _ =>
          (.error (.safeEvalError
            ("Function \x27" ++ funcName ++ "\x27 is not allowed.")), t)
      | _ =>
        (.error (.safeEvalError "Only simple function calls are allowed."), t)
    | .name id =>
      match t.names.lookup id with
      | some (.const v) => (.ok v, t)
      | _ =>
        (.error (.safeEvalError ("Name \x27" ++ id ++ "\x27 is not allowed.")), t)
    | .tupleE _ => (.error (.safeEvalError "Collections are not allowed."), t)
    | .listE _ => (.error (.safeEvalError "Collections are not allowed."), t)
    | .dictE _ => (.error (.safeEvalError "Collections are not allowed."), t)
    | _ => (.error (.safeEvalError "Unsupported expression."), t)

--------------------------------------------------------------------------------
-- Tokenizer (the lexical fragment of the host grammar used here)
--------------------------------------------------------------------------------

inductive Tok where
  | intT (n : Int)
  | floatT (q : Rat)
  | identT (s : String)
  | strT (s : String)
  | plusT | minusT | starT | slashT | dslashT | percentT | dstarT
  | lparenT | rparenT | commaT | eqT | eqeqT | ltT | gtT | leT | geT | neT
  | lbrackT | rbrackT | lbraceT | rbraceT | colonT | dotT
  | ampT | pipeT | caretT | lshiftT | rshiftT | tildeT | atT
deriving DecidableEq

def isIdentStart (c : Char) : Bool := c.isAlpha || c = '_'

def isIdentChar (c : Char) : Bool := c.isAlphanum || c = '_'

def digitsToNat (ds : List Char) : Nat :=
  ds.foldl (fun a c => a * 10 + (c.toNat - 48)) 0

def hexDigitVal (c : Char) : Option Nat :=
  if c.isDigit then some (c.toNat - 48)
  else if 'a' ≤ c && c ≤ 'f' then some (c.toNat - 87)
  else if 'A' ≤ c && c ≤ 'F' then some (c.toNat - 55)
  else none

def baseDigitsToNat (base : Nat) (ds : List Char) : Option Nat :=
  ds.foldl
    (fun acc c =>
      match acc, hexDigitVal c with
      | some a, some v => if v < base then some (a * base + v) else none
      | _, _ => none)
    (some 0)

/-- Lex the exponent-and-validation tail of a decimal number.  `ip` and
`fp` are the integer and fractional digit runs already consumed and
`isFloat` records whether a decimal point was seen. -/
def lexNumTail (ip fp : List Char) (isFloat : Bool) (cs : List Char) :
    Except Unit (Tok × List Char) :=
  let mant : Rat := mkRat (digitsToNat (ip ++ fp)) (10 ^ fp.length)
  let finish : Int → List Char → Except Unit (Tok × List Char) := fun e rest =>
    let q : Rat :=
      if 0 ≤ e then mant * ratNpow 10 e.toNat else mant / ratNpow 10 (-e).toNat
    .ok (.floatT q, rest)
  match cs with
  | 'e' :: rest =>
    let (sgn, r1) : Int × List Char :=
      match rest with
      | '+' :: r => (1, r)
      | '-' :: r => (-1, r)
      | r => (1, r)
    let (ed, r2) := r1.span Char.isDigit
    if ed.isEmpty then .error () else finish (sgn * digitsToNat ed) r2
  | 'E' :: rest =>
    let (sgn, r1) : Int × List Char :=
      match rest with
      | '+' :: r => (1, r)
      | '-' :: r => (-1, r)
      | r => (1, r)
    let (ed, r2) := r1.span Char.isDigit
    if ed.isEmpty then .error () else finish (sgn * digitsToNat ed) r2
  | rest =>
    if isFloat then finish 0 rest
    else if ip.head? = some '0' && ip.any (· ≠ '0') then .error ()
    else .ok (.intT (digitsToNat ip), rest)

/-- Lex a numeric literal (decimal int or float, or a hex/octal/binary
int).  A decimal integer literal with leading zeros (other than all-zero)
is a syntax error, as it is for the host tokenizer. -/
def lexNumber (cs : List Char) : Except Unit (Tok × List Char) :=
  match cs with
  | '0' :: 'x' :: rest =>
    let (ds, r) := rest.span (fun c => (hexDigitVal c).isSome)
    match baseDigitsToNat 16 ds with
    | some v => if ds.isEmpty then .error () else .ok (.intT v, r)
    | none => .error ()
  | '0' :: 'X' :: rest =>
    let (ds, r) := rest.span (fun c => (hexDigitVal c).isSome)
    match baseDigitsToNat 16 ds with
    | some v => if ds.isEmpty then .error () else .ok (.intT v, r)
    | none => .error ()
  | '0' :: 'o' :: rest =>
    let (ds, r) := rest.span Char.isDigit
    match baseDigitsToNat 8 ds with
    | some v => if ds.isEmpty then .error () else .ok (.intT v, r)
    | none => .error ()
  | '0' :: 'O' :: rest =>
    let (ds, r) := rest.span Char.isDigit
    match baseDigitsToNat 8 ds with
    | some v => if ds.isEmpty then .error () else .ok (.intT v, r)
    | none => .error ()
  | '0' :: 'b' :: rest =>
    let (ds, r) := rest.span Char.isDigit
    match baseDigitsToNat 2 ds with
    | some v => if ds.isEmpty then .error () else .ok (.intT v, r)
    | none => .error ()
  | '0' :: 'B' :: rest =>
    let (ds, r) := rest.span Char.isDigit
    match baseDigitsToNat 2 ds with
    | some v => if ds.isEmpty then .error () else .ok (.intT v, r)
    | none => .error ()
  | _ =>
    let (ip, r1) := cs.span Char.isDigit
    match r1 with
    | '.' :: r2 =>
      let (fp, r3) := r2.span Char.isDigit
      lexNumTail ip fp true r3
    | _ => lexNumTail ip [] false r1

/-- Lex a string literal body up to the closing quote, skipping over
backslash escapes. -/
def lexStrBody (quote : Char) : Nat → List Char → List Char →
    Except Unit (Tok × List Char)
  | 0, _, _ => .error ()
  | Nat.succ f, acc, cs =>
    match cs with
    | [] => .error ()
    | '\\' :: c :: rest => lexStrBody quote f (c :: acc) rest
    | '\\' :: [] => .error ()
    | c :: rest =>
      if c = quote then .ok (.strT (String.mk acc.reverse), rest)
      else lexStrBody quote f (c :: acc) rest

def isPySpace (c : Char) : Bool :=
  c = ' ' || c = '\t' || c = '\n' || c = '\r' ||
  c = Char.ofNat 11 || c = Char.ofNat 12

/-- The tokenizer.  Characters with no token (for example `$`, `;`, a
lone `!`) are lexical errors, surfacing as a parse failure exactly like a
host SyntaxError. -/
def tokenizeAux : Nat → List Char → Except Unit (List Tok)
  | 0, _ => .error ()
  | Nat.succ f, cs =>
    match cs with
    | [] => .ok []
    | c :: rest =>
      if isPySpace c then tokenizeAux f rest
      else if c.isDigit then do
        let (tok, r) ← lexNumber cs
        match r with
        | d :: _ => if isIdentChar d then .error () else do
            let ts ← tokenizeAux f r
            .ok (tok :: ts)
        | [] => do
            let ts ← tokenizeAux f r
            .ok (tok :: ts)
      else if isIdentStart c then
        let (ds, r) := cs.span isIdentChar
        do
          let ts ← tokenizeAux f r
          .ok (.identT (String.mk ds) :: ts)
      else if c = '\x27' || c = '"' then do
        let (tok, r) ← lexStrBody c (rest.length + 1) [] rest
        let ts ← tokenizeAux f r
        .ok (tok :: ts)
      else
        match cs with
        | '.' :: d :: _ =>
          if d.isDigit then do
            let (tok, r) ← lexNumber cs
            let ts ← tokenizeAux f r
            .ok (tok :: ts)
          else do
            let ts ← tokenizeAux f rest
            .ok (.dotT :: ts)
        | '*' :: '*' :: r => do let ts ← tokenizeAux f r; .ok (.dstarT :: ts)
        | '/' :: '/' :: r => do let ts ← tokenizeAux f r; .ok (.dslashT :: ts)
        | '<' :: '<' :: r => do let ts ← tokenizeAux f r; .ok (.lshiftT :: ts)
        | '>' :: '>' :: r => do let ts ← tokenizeAux f r; .ok (.rshiftT :: ts)
        | '<' :: '=' :: r => do let ts ← tokenizeAux f r; .ok (.leT :: ts)
        | '>' :: '=' :: r => do let ts ← tokenizeAux f r; .ok (.geT :: ts)
        | '=' :: '=' :: r => do let ts ← tokenizeAux f r; .ok (.eqeqT :: ts)
        | '!' :: '=' :: r => do let ts ← tokenizeAux f r; .ok (.neT :: ts)
        | _ =>
          let tok1 : Option Tok :=
            if c = '+' then some .plusT
            else if c = '-' then some .minusT
            else if c = '*' then some .starT
            else if c = '/' then some .slashT
            else if c = '%' then some .percentT
            else if c = '(' then some .lparenT
            else if c = ')' then some .rparenT
            else if c = ',' then some .commaT
            else if c = '=' then some .eqT
            else if c = '<' then some .ltT
            else if c = '>' then some .gtT
            else if c = '[' then some .lbrackT
            else if c = ']' then some .rbrackT
            else if c = '{' then some .lbraceT
            else if c = '}' then some .rbraceT
            else if c = ':' then some .colonT
            else if c = '^' then some .caretT
            else if c = '&' then some .ampT
            else if c = '|' then some .pipeT
            else if c = '~' then some .tildeT
            else if c = '@' then some .atT
            else none
          match tok1 with
          | some tok => do let ts ← tokenizeAux f rest; .ok (tok :: ts)
          | none => .error ()

def tokenize (cs : List Char) : Except Unit (List Tok) :=
  tokenizeAux (cs.length + 1) cs

--------------------------------------------------------------------------------
-- Recursive-descent parser (the host expression grammar in eval mode,
-- restricted to the node kinds above)
--------------------------------------------------------------------------------

/-- A full-expression parser handed down to the sub-parsers, closing the
grammar recursion through parentheses, brackets and argument lists.  Every
parser function returns the parsed node and the remaining tokens, or a
syntax error. -/
abbrev RecP := List Tok → Except Unit (PyAst × List Tok)

/-- Host keywords: reserved words that can never be used as a plain
identifier.  An occurrence in atom position is a syntax error (the subset
with expression roles - True, False, None, not, lambda - is handled before
this check fires). -/
def reservedKws : List String :=
  ["True", "False", "None", "and", "or", "not", "if", "else", "elif",
   "lambda", "in", "is", "for", "while", "def", "class", "return", "import",
   "from", "pass", "break", "continue", "global", "nonlocal", "del", "try",
   "except", "finally", "with", "as", "raise", "yield", "assert", "await",
   "async"]

/-- One element of a call argument list. -/
inductive ArgElem where
  | pos (a : PyAst)
  | kw (k : Option String) (v : PyAst)


/-- Parse a comma-separated expression list up to (and consuming) the
given closing token, allowing a trailing comma. -/
def parseExprListTo (rec : RecP) (closer : Tok) :
    Nat → List Tok → Except Unit (List PyAst × List Tok)
  | 0, _ => .error ()
  | Nat.succ f, ts =>
    match ts with
    | [] => .error ()
    | t :: r =>
      if t = closer then .ok ([], r)
      else do
        let (a, r1) ← rec ts
        match r1 with
        | .commaT :: r2 => do
          let (elts, r3) ← parseExprListTo rec closer f r2
          .ok (a :: elts, r3)
        | t2 :: r2 =>
          if t2 = closer then .ok ([a], r2) else .error ()
        | [] => .error ()

/-- Parse the `key : value` items of a dict display after the first key
and its colon have been consumed (first pair is passed in). -/
def parseDictItems (rec : RecP) :
    Nat → List (PyAst × PyAst) → List Tok → Except Unit (List (PyAst × PyAst) × List Tok)
  | 0, _, _ => .error ()
  | Nat.succ f, acc, ts =>
    match ts with
    | .rbraceT :: r => .ok (acc.reverse, r)
    | .commaT :: .rbraceT :: r => .ok (acc.reverse, r)
    | .commaT :: r1 => do
      let (k, r2) ← rec r1
      match r2 with
      | .colonT :: r3 => do
        let (v, r4) ← rec r3
        parseDictItems rec f ((k, v) :: acc) r4
      | _ => .error ()
    | _ => .error ()

/-- Parse the elements of a set display after the first element has been
consumed (and passed in through the accumulator). -/
def parseSetItems (rec : RecP) :
    Nat → List PyAst → List Tok → Except Unit (List PyAst × List Tok)
  | 0, _, _ => .error ()
  | Nat.succ f, acc, ts =>
    match ts with
    | .rbraceT :: r => .ok (acc.reverse, r)
    | .commaT :: .rbraceT :: r => .ok (acc.reverse, r)
    | .commaT :: r1 => do
      let (a, r2) ← rec r1
      parseSetItems rec f (a :: acc) r2
    | _ => .error ()

/-- Parse a call argument list up to (and consuming) the closing paren.
`sawKw` enforces the host rule that a plain positional argument may not
follow a keyword or double-star argument. -/
def parseCallArgs (rec : RecP) :
    Nat → Bool → List Tok → Except Unit (List PyAst × List (Option String × PyAst) × List Tok)
  | 0, _, _ => .error ()
  | Nat.succ f, sawKw, ts =>
    match ts with
    | .rparenT :: r => .ok ([], [], r)
    | _ => do
      let (elem, sawKw2, r1) ←
        (match ts with
          | .dstarT :: rest => do
            let (e, r) ← rec rest
            .ok ((ArgElem.kw none e), true, r)
          | .starT :: rest => do
            let (e, r) ← rec rest
            .ok ((ArgElem.pos (.starred e)), sawKw, r)
          | .identT s :: .eqT :: rest =>
            if reservedKws.contains s then .error ()
            else do
              let (e, r) ← rec rest
              .ok ((ArgElem.kw (some s) e), true, r)
          | _ =>
            if sawKw then .error ()
            else do
              let (e, r) ← rec ts
              .ok ((ArgElem.pos e), sawKw, r) :
          Except Unit (ArgElem × Bool × List Tok))
      let step : List Tok → Except Unit (List PyAst × List (Option String × PyAst) × List Tok) :=
        fun r2 => parseCallArgs rec f sawKw2 r2
      let (args, kws, r3) ←
        (match r1 with
          | .rparenT :: r2 => .ok ([], [], r2)
          | .commaT :: r2 => step r2
          | _ => .error () :
          Except Unit (List PyAst × List (Option String × PyAst) × List Tok))
      match elem with
      | .pos a => .ok (a :: args, kws, r3)
      | .kw k v => .ok (args, (k, v) :: kws, r3)

/-- Parse an atom: literal, identifier, parenthesised expression or tuple,
list, dict or set display. -/
def parseAtom (rec : RecP) (f : Nat) (ts : List Tok) : Except Unit (PyAst × List Tok) :=
  match ts with
  | .intT n :: r => .ok (.const (.intC n), r)
  | .floatT q :: r => .ok (.const (.floatC q), r)
  | .strT s :: r => .ok (.const (.strC s), r)
  | .identT s :: r =>
    if s = "True" then .ok (.const (.boolC true), r)
    else if s = "False" then .ok (.const (.boolC false), r)
    else if s = "None" then .ok (.const .noneC, r)
    else if reservedKws.contains s then .error ()
    else .ok (.name s, r)
  | .lparenT :: .rparenT :: r => .ok (.tupleE [], r)
  | .lparenT :: r => do
    let (a, r1) ← rec r
    match r1 with
    | .rparenT :: r2 => .ok (a, r2)
    | .commaT :: r2 => do
      let (elts, r3) ← parseExprListTo rec .rparenT f r2
      .ok (.tupleE (a :: elts), r3)
    | _ => .error ()
  | .lbrackT :: r => do
    let (elts, r1) ← parseExprListTo rec .rbrackT f r
    .ok (.listE elts, r1)
  | .lbraceT :: .rbraceT :: r => .ok (.dictE [], r)
  | .lbraceT :: r => do
    let (a, r1) ← rec r
    match r1 with
    | .colonT :: r2 => do
      let (v, r3) ← rec r2
      let (pairs, r4) ← parseDictItems rec f [(a, v)] r3
      .ok (.dictE pairs, r4)
    | _ => do
      let (elts, r2) ← parseSetItems rec f [a] r1
      .ok (.setE elts, r2)
  | _ => .error ()

/-- Parse the trailers of a primary: calls, subscripts, attribute
accesses, applied left to right. -/
def parseTrailers (rec : RecP) : Nat → PyAst → List Tok → Except Unit (PyAst × List Tok)
  | 0, _, _ => .error ()
  | Nat.succ f, a, ts =>
    match ts with
    | .lparenT :: rest => do
      let (args, kws, r2) ← parseCallArgs rec (rest.length + 2) false rest
      parseTrailers rec f (.call a args kws) r2
    | .lbrackT :: rest => do
      let (i, r2) ← rec rest
      match r2 with
      | .rbrackT :: r3 => parseTrailers rec f (.subscript a i) r3
      | _ => .error ()
    | .dotT :: .identT s :: r2 =>
      if reservedKws.contains s then .error ()
      else parseTrailers rec f (.attribute a s) r2
    | .dotT :: _ => .error ()
    | _ => .ok (a, ts)

def parsePrimary (rec : RecP) (f : Nat) (ts : List Tok) : Except Unit (PyAst × List Tok) := do
  let (a, r) ← parseAtom rec f ts
  parseTrailers rec f a r

/-- Factor and power levels: `factor := (+|-|~) factor | primary [** factor]`,
so that the power operator binds tighter than a unary minus on its left
operand while still allowing a unary operand on its right. -/
def parseFactor (rec : RecP) : Nat → List Tok → Except Unit (PyAst × List Tok)
  | 0, _ => .error ()
  | Nat.succ f, ts =>
    match ts with
    | .plusT :: rest => do
      let (a, r) ← parseFactor rec f rest
      .ok (.unaryOp .uAdd a, r)
    | .minusT :: rest => do
      let (a, r) ← parseFactor rec f rest
      .ok (.unaryOp .uSub a, r)
    | .tildeT :: rest => do
      let (a, r) ← parseFactor rec f rest
      .ok (.unaryOp .invert a, r)
    | _ => do
      let (b, r1) ← parsePrimary rec f ts
      match r1 with
      | .dstarT :: r2 => do
        let (e, r3) ← parseFactor rec f r2
        .ok (.binOp .pow b e, r3)
      | _ => .ok (b, r1)

/-- Left-associative chaining of one precedence level of binary operator
tokens over a tighter sub-parser. -/
def chainBin (sub : RecP) (opOf : Tok → Option BinK) :
    Nat → PyAst → List Tok → Except Unit (PyAst × List Tok)
  | 0, _, _ => .error ()
  | Nat.succ f, acc, ts =>
    match ts with
    | tok :: rest =>
      match opOf tok with
      | some k => do
        let (b, r) ← sub rest
        chainBin sub opOf f (.binOp k acc b) r
      | none => .ok (acc, ts)
    | [] => .ok (acc, ts)

def parseBinLevel (sub : RecP) (opOf : Tok → Option BinK) : RecP := fun ts => do
  let (a, r) ← sub ts
  chainBin sub opOf (r.length + 1) a r

def termOp : Tok → Option BinK
  | .starT => some .mult
  | .slashT => some .div
  | .dslashT => some .floorDiv
  | .percentT => some .mod
  | .atT => some .matMult
  | _ => none

def arithOp : Tok → Option BinK
  | .plusT => some .add
  | .minusT => some .sub
  | _ => none

def shiftOp : Tok → Option BinK
  | .lshiftT => some .lshift
  | .rshiftT => some .rshift
  | _ => none

def bandOp : Tok → Option BinK
  | .ampT => some .bitAnd
  | _ => none

def bxorOp : Tok → Option BinK
  | .caretT => some .bitXor
  | _ => none

def borOp : Tok → Option BinK
  | .pipeT => some .bitOr
  | _ => none

def isCmpTok : Tok → Bool
  | .ltT => true
  | .gtT => true
  | .leT => true
  | .geT => true
  | .eqeqT => true
  | .neT => true
  | .identT s => s = "in" || s = "is"
  | _ => false

/-- Comparison chaining: one `ast.Compare` node collects all the right
operands of a chain (the operator list is immaterial to evaluation, which
rejects any Compare node). -/
def chainCmp (sub : RecP) : Nat → List PyAst → List Tok → Except Unit (List PyAst × List Tok)
  | 0, _, _ => .error ()
  | Nat.succ f, acc, ts =>
    match ts with
    | tok :: rest =>
      if isCmpTok tok then do
        let (b, r) ← sub rest
        chainCmp sub f (b :: acc) r
      else .ok (acc.reverse, ts)
    | [] => .ok (acc.reverse, ts)

def parseCmpLevel (sub : RecP) : RecP := fun ts => do
  let (a, r) ← sub ts
  let (rest, r2) ← chainCmp sub (r.length + 1) [] r
  match rest with
  | [] => .ok (a, r2)
  | _ => .ok (.compare a rest, r2)

def parseNotLevel (sub : RecP) : Nat → List Tok → Except Unit (PyAst × List Tok)
  | 0, _ => .error ()
  | Nat.succ f, ts =>
    match ts with
    | .identT "not" :: rest => do
      let (a, r) ← parseNotLevel sub f rest
      .ok (.unaryOp .notOp a, r)
    | _ => sub ts

/-- Left-associative chaining of a boolean operator keyword, producing
`ast.BoolOp` nodes (here binary, which evaluation cannot distinguish). -/
def chainBool (sub : RecP) (kw : String) : Nat → PyAst → List Tok → Except Unit (PyAst × List Tok)
  | 0, _, _ => .error ()
  | Nat.succ f, acc, ts =>
    match ts with
    | .identT s :: rest =>
      if s = kw then do
        let (b, r) ← sub rest
        chainBool sub kw f (.boolOpE acc b) r
      else .ok (acc, ts)
    | _ => .ok (acc, ts)

def parseBoolLevel (sub : RecP) (kw : String) : RecP := fun ts => do
  let (a, r) ← sub ts
  chainBool sub kw (r.length + 1) a r

/-- The full precedence cascade from `or` down to atoms, parameterised by
the full-expression parser used inside brackets and argument lists. -/
def parseCascade (rec : RecP) : RecP :=
  let fac : RecP := fun ts => parseFactor rec (ts.length + 1) ts
  let term : RecP := parseBinLevel fac termOp
  let ar : RecP := parseBinLevel term arithOp
  let sh : RecP := parseBinLevel ar shiftOp
  let ba : RecP := parseBinLevel sh bandOp
  let bx : RecP := parseBinLevel ba bxorOp
  let bo : RecP := parseBinLevel bx borOp
  let cmp : RecP := parseCmpLevel bo
  let nt : RecP := fun ts => parseNotLevel cmp (ts.length + 1) ts
  let an : RecP := parseBoolLevel nt "and"
  parseBoolLevel an "or"

/-- Skip a lambda parameter list (identifiers, stars and commas) up to and
including the colon. -/
def skipLambdaParams : Nat → List Tok → Except Unit (List Tok)
  | 0, _ => .error ()
  | Nat.succ f, ts =>
    match ts with
    | .colonT :: r => .ok r
    | .identT s :: r =>
      if reservedKws.contains s then .error () else skipLambdaParams f r
    | .commaT :: r => skipLambdaParams f r
    | .starT :: r => skipLambdaParams f r
    | .dstarT :: r => skipLambdaParams f r
    | _ => .error ()

/-- A full expression: lambda, or the operator cascade with an optional
ternary `a if c else b` tail. -/
def parsePyExpr : Nat → List Tok → Except Unit (PyAst × List Tok)
  | 0, _ => .error ()
  | Nat.succ f, ts =>
    match ts with
    | .identT "lambda" :: rest => do
      let r1 ← skipLambdaParams (rest.length + 1) rest
      let (body, r2) ← parsePyExpr f r1
      .ok (.lambdaE body, r2)
    | _ => do
      let (a, r1) ← parseCascade (parsePyExpr f) ts
      match r1 with
      | .identT "if" :: r2 => do
        let (c, r3) ← parseCascade (parsePyExpr f) r2
        match r3 with
        | .identT "else" :: r4 => do
          let (e, r5) ← parsePyExpr f r4
          .ok (.ifExp c a e, r5)
        | _ => .error ()
      | _ => .ok (a, r1)

/-- Parse the remaining comma-separated elements of a top-level tuple,
up to the end of input, allowing a trailing comma. -/
def parseExprListRest (rec : RecP) : Nat → List Tok → Except Unit (List PyAst × List Tok)
  | 0, _ => .error ()
  | Nat.succ f, ts => do
    let (a, r1) ← rec ts
    match r1 with
    | [] => .ok ([a], [])
    | .commaT :: [] => .ok ([a], [])
    | .commaT :: r2 => do
      let (elts, r3) ← parseExprListRest rec f r2
      .ok (a :: elts, r3)
    | _ => .error ()

/-- Top level of eval-mode parsing: one expression, or a comma-separated
top-level tuple, consuming all tokens. -/
def parseTop (toks : List Tok) : Except Unit PyAst := do
  let (a, r) ← parsePyExpr (toks.length + 2) toks
  match r with
  | [] => .ok a
  | .commaT :: r2 =>
    if r2.isEmpty then .ok (.tupleE [a])
    else do
      let (elts, r3) ← parseExprListRest (parsePyExpr (toks.length + 2)) (r2.length + 1) r2
      if r3.isEmpty then .ok (.tupleE (a :: elts)) else .error ()
  | _ => .error ()

/-- The body of `ast.parse(expr, mode="eval")` in this model: tokenize,
parse one expression, require all input consumed. -/
def parsePy (cs : List Char) : Except Unit PyAst := do
  let toks ← tokenize cs
  parseTop toks

--------------------------------------------------------------------------------
-- Preprocessing and the safe_eval entry point
--------------------------------------------------------------------------------

/-- The whitespace trimming of `str.strip()` (ASCII whitespace). -/
def pyStrip (s : List Char) : List Char :=
  ((s.dropWhile isPySpace).reverse.dropWhile isPySpace).reverse

/-- Expansion of one character under `str.replace("^", "**")`. -/
def caretExp (c : Char) : List Char :=
  if c = '^' then ['*', '*'] else [c]

/-- The preprocessing substitution `expr.replace("^", "**")`: every caret
is replaced by a double star, unconditionally and textually. -/
def replaceCaret (s : List Char) : List Char :=
  s.flatMap caretExp

/-- The final `float(result)` conversion.  An int of magnitude at least
2^1024 overflows; a complex cannot be converted. -/
def pyFloatConv : PyVal → Except HostE Rat
  | .int n =>
    if n.natAbs < 2 ^ 1024 then .ok (n : Rat)
    else .error (.overflowError "int too large to convert to float")
  | .float q => .ok q
  | .boolV b => .ok (if b then 1 else 0)
  | .complexV => .error (.typeError "can\x27t convert complex to float")
  | .strV _ => .error (.valueError "could not convert string to float")

/-- The body of `safe_eval`, with the allow-list tables explicit: trim,
reject empty input, substitute the power alias, parse (converting a host
SyntaxError into SafeEvalError "Invalid syntax."), walk the tree, and
convert the result to float, converting any conversion failure into
SafeEvalError "Could not compute result.".  Exceptions raised while
walking the tree - including host arithmetic errors - propagate out
unchanged, since the source wraps only the parse and the final conversion
in try blocks. -/
def safeEvalCore (t : Tables) (s : List Char) : Except PyExc Rat × Tables :=
  let s1 := pyStrip s
  if s1.isEmpty then (.error (.safeEvalError "Empty expression."), t)
  else
    let s2 := replaceCaret s1
    match parsePy s2 with
    | .error _ => (.error (.safeEvalError "Invalid syntax."), t)
    | .ok a =>
      match evalAst (s2.length + 2) t a with
      | (.error e, t2) => (.error e, t2)
      | (.ok v, t2) =>
        match pyFloatConv v with
        | .ok q => (.ok q, t2)
        | .error _ => (.error (.safeEvalError "Could not compute result."), t2)

/-- The public `safe_eval(expr)` with the module-level tables. -/
def safeEval (s : String) : Except PyExc Rat :=
  (safeEvalCore pyTables s.data).1

--------------------------------------------------------------------------------
-- The UI glue: session state and the evaluate() callback
--------------------------------------------------------------------------------

/-- The session state touched by `evaluate`: current expression text, last
result, last error, and the history list (newest first). -/
structure SessionState where
  expr : String
  result : Option String
  error : Option String
  history : List (String × String)
deriving DecidableEq

def hostStr : HostE → String
  | .zeroDivisionError m => m
  | .valueError m => m
  | .typeError m => m
  | .overflowError m => m
  | .recursionError m => m

/-- The message `str(e)` displayed by the UI catch-all handler. -/
def excStr : PyExc → String
  | .safeEvalError m => m
  | .host h => hostStr h

/-- Result formatting: `str(int(val)) if val.is_integer() else str(val)`.
In this exact-rational model `is_integer` is `den = 1`; the non-integer
branch renders the rational (the host renders the shortest float repr -
the rendering is never inspected by any property below). -/
def formatVal (q : Rat) : String :=
  if q.den = 1 then toString q.num else toString q

/-- The `evaluate()` callback: strip the expression; an empty expression
only sets the error message; otherwise call `safe_eval`, and on success
set the result, clear the error and push (expression, shown) at the front
of the history, trimming it to 15 entries - while on any exception clear
the result and set the error message, leaving expression and history
untouched. -/
def uiEvaluate (st : SessionState) : SessionState :=
  let expr := String.mk (pyStrip st.expr.data)
  if expr.data.isEmpty then
    { st with error := some "Enter an expression.", result := none }
  else
    match safeEval expr with
    | .ok v =>
      let shown := formatVal v
      { st with
        result := some shown
        error := none
        history := ((expr, shown) :: st.history).take 15 }
    | .error e =>
      { st with result := none, error := some (excStr e) }

--------------------------------------------------------------------------------
-- The realized error taxonomy
--------------------------------------------------------------------------------

/-- The fixed SafeEvalError messages the program can produce, covering the
spec kinds EmptyExpression, InvalidSyntax, NonNumericConstant,
OperatorNotAllowed, UnaryOperatorNotAllowed, OnlyLiteralCallsAllowed,
UnsupportedExpression (two messages) and NonNumericResult.  The remaining
two realized kinds, FunctionNotAllowed and NameNotAllowed, carry the
offending identifier and are recognised by shape in `knownMsg`. -/
def fixedMsgs : List String :=
  ["Empty expression.", "Invalid syntax.", "Only numeric constants are allowed.",
   "Operator not allowed.", "Unary operator not allowed.",
   "Only simple function calls are allowed.", "Collections are not allowed.",
   "Unsupported expression.", "Could not compute result."]

/-- A message belonging to the realized SafeEvalError taxonomy. -/
def knownMsg (m : String) : Prop :=
  m ∈ fixedMsgs ∨
  (∃ n, m = "Function \x27" ++ n ++ "\x27 is not allowed.") ∨
  (∃ n, m = "Name \x27" ++ n ++ "\x27 is not allowed.")

/-- An exception allowed to escape `safe_eval`: a SafeEvalError with one
of the realized messages, or an uncaught host exception. -/
def errAllowed : PyExc → Prop
  | .safeEvalError m => knownMsg m
  | .host _ => True

--------------------------------------------------------------------------------
-- Lemmas: the evaluator reads but never writes the tables, and every
-- SafeEvalError it raises carries a realized message
--------------------------------------------------------------------------------


theorem evalKwsWith_sound (ev : Tables → PyAst → EvalRes PyVal)
    (h : ∀ t a, (ev t a).2 = t ∧ ∀ e, (ev t a).1 = .error e → errAllowed e) :
    ∀ t l, (evalKwsWith ev t l).2 = t ∧
      ∀ e, (evalKwsWith ev t l).1 = .error e → errAllowed e := by
  intro t l
  induction l generalizing t with
  | nil => simp [evalKwsWith]
  | cons kv rest ih =>
    rcases kv with ⟨k | k, a⟩
    · simpa only [evalKwsWith] using ih t
    · simp only [evalKwsWith]
      split
      next e t2 heq =>
        have ht2 : t2 = t := by
          have h0 := (h t a).1
          rw [heq] at h0
          exact h0
        rw [ht2] at heq
        rw [ht2]
        exact ⟨rfl, fun e2 he2 => by cases he2; exact (h t a).2 e (by rw [heq])⟩
      next v t2 heq =>
        have ht2 : t2 = t := by
          have h0 := (h t a).1
          rw [heq] at h0
          exact h0
        rw [ht2] at heq
        rw [ht2]
        split
        next e3 t3 heq2 =>
          have ht3 : t3 = t := by
            have h0 := (ih t).1
            rw [heq2] at h0
            exact h0
          rw [ht3] at heq2
          rw [ht3]
          exact ⟨rfl, fun e2 he2 => by cases he2; exact (ih t).2 e3 (by rw [heq2])⟩
        next vs t3 heq2 =>
          have ht3 : t3 = t := by
            have h0 := (ih t).1
            rw [heq2] at h0
            exact h0
          rw [ht3]
          exact ⟨rfl, fun e2 he2 => by cases he2⟩

theorem evalListWith_sound (ev : Tables → PyAst → EvalRes PyVal)
    (h : ∀ t a, (ev t a).2 = t ∧ ∀ e, (ev t a).1 = .error e → errAllowed e) :
    ∀ t l, (evalListWith ev t l).2 = t ∧
      ∀ e, (evalListWith ev t l).1 = .error e → errAllowed e := by
  intro t l
  induction l generalizing t with
  | nil => simp [evalListWith]
  | cons a rest ih =>
    simp only [evalListWith]
    split
    next e t2 heq =>
      have ht2 : t2 = t := by
        have h0 := (h t a).1
        rw [heq] at h0
        exact h0
      rw [ht2] at heq
      rw [ht2]
      exact ⟨rfl, fun e2 he2 => by cases he2; exact (h t a).2 e (by rw [heq])⟩
    next v t2 heq =>
      have ht2 : t2 = t := by
        have h0 := (h t a).1
        rw [heq] at h0
        exact h0
      rw [ht2] at heq
      rw [ht2]
      split
      next e3 t3 heq2 =>
        have ht3 : t3 = t := by
          have h0 := (ih t).1
          rw [heq2] at h0
          exact h0
        rw [ht3] at heq2
        rw [ht3]
        exact ⟨rfl, fun e2 he2 => by cases he2; exact (ih t).2 e3 (by rw [heq2])⟩
      next vs t3 heq2 =>
        have ht3 : t3 = t := by
          have h0 := (ih t).1
          rw [heq2] at h0
          exact h0
        rw [ht3]
        exact ⟨rfl, fun e2 he2 => by cases he2⟩

theorem evalAst_sound : ∀ (fuel : Nat) (t : Tables) (a : PyAst),
    (evalAst fuel t a).2 = t ∧
    ∀ e, (evalAst fuel t a).1 = .error e → errAllowed e := by
  intro fuel
  induction fuel with
  | zero =>
    intro t a
    exact ⟨rfl, fun e he => by cases he; trivial⟩
  | succ f ih =>
    intro t a
    have hlist := evalListWith_sound (fun t a => evalAst f t a) (fun t a => ih t a)
    have hkws := evalKwsWith_sound (fun t a => evalAst f t a) (fun t a => ih t a)
    cases a
    case const c =>
      cases c
      all_goals
        exact ⟨rfl, fun e he => by
          simp only [evalAst] at he
          first
          | (cases he; exact Or.inl (by simp [fixedMsgs]))
          | cases he⟩
    case binOp k l r =>
      simp only [evalAst]
      split
      · exact ⟨rfl, fun e he => by cases he; exact Or.inl (by simp [fixedMsgs])⟩
      next fop hlk =>
        split
        next e1 t2 heq =>
          have ht2 : t2 = t := by
            have h0 := (ih t l).1
            rw [heq] at h0
            exact h0
          rw [ht2] at heq
          rw [ht2]
          exact ⟨rfl, fun e he => by cases he; exact (ih t l).2 e1 (by rw [heq])⟩
        next lv t2 heq =>
          have ht2 : t2 = t := by
            have h0 := (ih t l).1
            rw [heq] at h0
            exact h0
          rw [ht2] at heq
          rw [ht2]
          split
          next e2 t3 heq2 =>
            have ht3 : t3 = t := by
              have h0 := (ih t r).1
              rw [heq2] at h0
              exact h0
            rw [ht3] at heq2
            rw [ht3]
            exact ⟨rfl, fun e he => by cases he; exact (ih t r).2 e2 (by rw [heq2])⟩
          next rv t3 heq2 =>
            have ht3 : t3 = t := by
              have h0 := (ih t r).1
              rw [heq2] at h0
              exact h0
            rw [ht3]
            split
            · exact ⟨rfl, fun e he => by cases he⟩
            · exact ⟨rfl, fun e he => by cases he; trivial⟩
    case unaryOp k a0 =>
      simp only [evalAst]
      split
      · exact ⟨rfl, fun e he => by cases he; exact Or.inl (by simp [fixedMsgs])⟩
      next fop hlk =>
        split
        next e1 t2 heq =>
          have ht2 : t2 = t := by
            have h0 := (ih t a0).1
            rw [heq] at h0
            exact h0
          rw [ht2] at heq
          rw [ht2]
          exact ⟨rfl, fun e he => by cases he; exact (ih t a0).2 e1 (by rw [heq])⟩
        next v t2 heq =>
          have ht2 : t2 = t := by
            have h0 := (ih t a0).1
            rw [heq] at h0
            exact h0
          rw [ht2]
          split
          · exact ⟨rfl, fun e he => by cases he⟩
          · exact ⟨rfl, fun e he => by cases he; trivial⟩
    case call fn args kws =>
      cases fn
      case name funcName =>
        simp only [evalAst]
        split
        next fobj hlk =>
          split
          next e1 t2 heq =>
            have ht2 : t2 = t := by
              have h0 := (hlist t args).1
              rw [heq] at h0
              exact h0
            rw [ht2] at heq
            rw [ht2]
            exact ⟨rfl, fun e he => by cases he; exact (hlist t args).2 e1 (by rw [heq])⟩
          next argVals t2 heq =>
            have ht2 : t2 = t := by
              have h0 := (hlist t args).1
              rw [heq] at h0
              exact h0
            rw [ht2] at heq
            rw [ht2]
            split
            next e2 t3 heq2 =>
              have ht3 : t3 = t := by
                have h0 := (hkws t kws).1
                rw [heq2] at h0
                exact h0
              rw [ht3] at heq2
              rw [ht3]
              exact ⟨rfl, fun e he => by cases he; exact (hkws t kws).2 e2 (by rw [heq2])⟩
            next kwVals t3 heq2 =>
              have ht3 : t3 = t := by
                have h0 := (hkws t kws).1
                rw [heq2] at h0
                exact h0
              rw [ht3]
              split
              · exact ⟨rfl, fun e he => by cases he⟩
              · exact ⟨rfl, fun e he => by cases he; trivial⟩
        next x hne =>
          exact ⟨rfl, fun e he => by cases he; exact Or.inr (Or.inl ⟨funcName, rfl⟩)⟩
      all_goals
        exact ⟨rfl, fun e he => by
          simp only [evalAst] at he
          cases he
          exact Or.inl (by simp [fixedMsgs])⟩
    case name id =>
      simp only [evalAst]
      split
      next v hlk => exact ⟨rfl, fun e he => by cases he⟩
      next x hne =>
        exact ⟨rfl, fun e he => by cases he; exact Or.inr (Or.inr ⟨id, rfl⟩)⟩
    all_goals
      exact ⟨rfl, fun e he => by
        simp only [evalAst] at he
        cases he
        exact Or.inl (by simp [fixedMsgs])⟩

--------------------------------------------------------------------------------
-- Preprocessing lemmas, and the claims
--------------------------------------------------------------------------------

deriving instance DecidableEq for Except

set_option maxRecDepth 20000
set_option exponentiation.threshold 2000

theorem replaceCaret_cons (c : Char) (s : List Char) :
    replaceCaret (c :: s) = caretExp c ++ replaceCaret s := rfl

theorem replaceCaret_append (s1 s2 : List Char) :
    replaceCaret (s1 ++ s2) = replaceCaret s1 ++ replaceCaret s2 := by
  simp [replaceCaret]

theorem replaceCaret_caretExp (c : Char) :
    replaceCaret (caretExp c) = caretExp c := by
  by_cases h : c = '^'
  · subst h
    rfl
  · simp [caretExp, replaceCaret, h]

theorem replaceCaret_idem (s : List Char) :
    replaceCaret (replaceCaret s) = replaceCaret s := by
  induction s with
  | nil => rfl
  | cons c cs ih =>
    rw [replaceCaret_cons, replaceCaret_append, replaceCaret_caretExp, ih]

theorem dropWhile_replaceCaret (s : List Char) :
    (replaceCaret s).dropWhile isPySpace = replaceCaret (s.dropWhile isPySpace) := by
  induction s with
  | nil => rfl
  | cons c cs ih =>
    rw [replaceCaret_cons]
    by_cases h : c = '^'
    · subst h
      have h1 : isPySpace '*' = false := rfl
      have h2 : isPySpace '^' = false := rfl
      simp [caretExp, List.dropWhile_cons, h1, h2, replaceCaret_cons]
    · have hc : caretExp c = [c] := by simp [caretExp, h]
      rw [hc]
      by_cases hs : isPySpace c
      · simp [List.dropWhile_cons, hs, ih]
      · simp [List.dropWhile_cons, hs, replaceCaret_cons, hc]

theorem reverse_replaceCaret (s : List Char) :
    (replaceCaret s).reverse = replaceCaret s.reverse := by
  induction s with
  | nil => rfl
  | cons c cs ih =>
    rw [replaceCaret_cons, List.reverse_append, List.reverse_cons,
      replaceCaret_append, ih]
    by_cases h : c = '^' <;> simp [caretExp, replaceCaret, h]

theorem replaceCaret_isEmpty (s : List Char) :
    (replaceCaret s).isEmpty = s.isEmpty := by
  cases s with
  | nil => rfl
  | cons c cs =>
    rw [replaceCaret_cons]
    by_cases h : c = '^' <;> simp [caretExp, h]

theorem pyStrip_replaceCaret (s : List Char) :
    pyStrip (replaceCaret s) = replaceCaret (pyStrip s) := by
  unfold pyStrip
  rw [dropWhile_replaceCaret, reverse_replaceCaret, dropWhile_replaceCaret,
    reverse_replaceCaret]

theorem safeEvalCore_caret (t : Tables) (s : List Char) :
    safeEvalCore t (replaceCaret s) = safeEvalCore t s := by
  simp only [safeEvalCore, pyStrip_replaceCaret, replaceCaret_isEmpty, replaceCaret_idem]

theorem evalKwsWith_append_none (ev : Tables → PyAst → EvalRes PyVal)
    (kws1 : List (Option String × PyAst)) (e : PyAst)
    (kws2 : List (Option String × PyAst)) :
    ∀ t, evalKwsWith ev t (kws1 ++ (none, e) :: kws2) =
      evalKwsWith ev t (kws1 ++ kws2) := by
  induction kws1 with
  | nil => intro t; rfl
  | cons kv rest ih =>
    intro t
    rcases kv with ⟨k | k, a⟩
    · show evalKwsWith ev t (rest ++ (none, e) :: kws2) = _
      exact ih t
    · simp only [List.cons_append, evalKwsWith]
      split
      next e1 t2 heq => rfl
      next v t2 heq =>
        simp only [List.append_eq]
        rw [ih]

theorem evalAst_call_kwnone (fuel : Nat) (t : Tables) (fn : PyAst)
    (args : List PyAst) (kws1 : List (Option String × PyAst)) (e : PyAst)
    (kws2 : List (Option String × PyAst)) :
    evalAst fuel t (.call fn args (kws1 ++ (none, e) :: kws2)) =
    evalAst fuel t (.call fn args (kws1 ++ kws2)) := by
  cases fuel with
  | zero => rfl
  | succ f =>
    cases fn
    case name funcName =>
      simp only [evalAst]
      split
      next fobj hlk =>
        split
        next e1 t2 heq => rfl
        next argVals t2 heq => rw [evalKwsWith_append_none]
      next x hne => rfl
    all_goals rfl

theorem safeEvalCore_snd (t : Tables) (s : List Char) :
    (safeEvalCore t s).2 = t := by
  simp only [safeEvalCore]
  split
  · rfl
  · split
    · rfl
    next a hp =>
      split
      next e1 t2 heq =>
        have h0 := (evalAst_sound ((replaceCaret (pyStrip s)).length + 2) t a).1
        rw [heq] at h0
        exact h0
      next v t2 heq =>
        have h0 := (evalAst_sound ((replaceCaret (pyStrip s)).length + 2) t a).1
        rw [heq] at h0
        split
        · exact h0
        · exact h0

theorem safeEval_classified (s : String) :
    ∀ e, safeEval s = .error e → errAllowed e := by
  intro e he
  simp only [safeEval, safeEvalCore] at he
  revert he
  split
  · intro he
    cases he
    exact Or.inl (by simp [fixedMsgs])
  · split
    · intro he
      cases he
      exact Or.inl (by simp [fixedMsgs])
    next a hp =>
      split
      next e1 t2 heq =>
        intro he
        cases he
        exact (evalAst_sound ((replaceCaret (pyStrip s.data)).length + 2) pyTables a).2
          e (by rw [heq])
      next v t2 heq =>
        split
        · intro he
          cases he
        · intro he
          cases he
          exact Or.inl (by simp [fixedMsgs])

/-- C1: the claim that every failure of evaluate is converted into one of
the eleven named error kinds at the evaluation boundary is false: dividing
by zero raises the host ZeroDivisionError, which escapes `safe_eval`
uncaught (only the caller-side catch-all in the UI stops it). -/
theorem C1_counterexample :
    safeEval "1/0" = .error (.host (.zeroDivisionError "division by zero")) := by
  with_unfolding_all decide

/-- C1 (amended): every failure of evaluate is either a SafeEvalError
carrying one of the ten realized kinds (MathDomainError never occurs), or
an uncaught host arithmetic exception (ZeroDivisionError, ValueError,
TypeError, OverflowError, RecursionError) escaping from operator or
function application. -/
theorem C1_amended (s : String) (e : PyExc) (h : safeEval s = .error e) :
    errAllowed e :=
  safeEval_classified s e h

theorem C1_amended_witness :
    safeEval "[1,2,3]" = .error (.safeEvalError "Collections are not allowed.") ∧
    errAllowed (.safeEvalError "Collections are not allowed.") :=
  ⟨by with_unfolding_all decide,
   C1_amended "[1,2,3]" _ (by with_unfolding_all decide)⟩

/-- C2: the claim that out-of-domain applications fail with MathDomainError
and never raise an uncaught runtime error is false: `sqrt(-1)` raises the
math library ValueError, which `safe_eval` does not catch. -/
theorem C2_counterexample :
    safeEval "sqrt(-1)" = .error (.host (.valueError "math domain error")) := by
  with_unfolding_all decide

/-- C2 (amended): `sqrt(-1)`, `factorial(-1)` and `log(0)` fail by raising
the underlying ValueError uncaught through the evaluation boundary (no
MathDomainError kind exists in the code), while `**` with a negative base
and fractional exponent yields a complex value that the final float
conversion rejects, failing with NonNumericResult; none of these return
NaN or a complex result. -/
theorem C2_amended :
    safeEval "sqrt(-1)" = .error (.host (.valueError "math domain error")) ∧
    safeEval "factorial(-1)" =
      .error (.host (.valueError "factorial() not defined for negative values")) ∧
    safeEval "log(0)" = .error (.host (.valueError "math domain error")) ∧
    safeEval "(-1)**0.5" = .error (.safeEvalError "Could not compute result.") := by
  refine ⟨?_, ?_, ?_, ?_⟩ <;> with_unfolding_all decide

/-- C3: the claim that every input outside the restricted grammar fails
with InvalidSyntax - and in particular that True and False are rejected -
is false: `True` is a numeric constant to the evaluator (host bool is an
int subclass) and evaluates to 1.0. -/
theorem C3_counterexample : safeEval "True" = .ok 1 := by
  with_unfolding_all decide

/-- C3 (amended): inputs the parser rejects outright (such as assignment)
fail with InvalidSyntax; parseable but disallowed constructs fail with
their specific kinds - NonNumericConstant for string literals, the
collections error for list/tuple/dict displays, OnlyLiteralCallsAllowed
for calls on attributes, UnsupportedExpression for comparisons, lambdas,
attribute access and subscripting - and the boolean literals True and
False are not rejected but evaluate as the numbers 1.0 and 0.0. -/
theorem C3_amended :
    safeEval "x = 1" = .error (.safeEvalError "Invalid syntax.") ∧
    safeEval "\x27abc\x27" = .error (.safeEvalError "Only numeric constants are allowed.") ∧
    safeEval "[1,2,3]" = .error (.safeEvalError "Collections are not allowed.") ∧
    safeEval "(1,2)" = .error (.safeEvalError "Collections are not allowed.") ∧
    safeEval "1 < 2" = .error (.safeEvalError "Unsupported expression.") ∧
    safeEval "lambda: 1" = .error (.safeEvalError "Unsupported expression.") ∧
    safeEval "a.b" = .error (.safeEvalError "Unsupported expression.") ∧
    safeEval "a[0]" = .error (.safeEvalError "Unsupported expression.") ∧
    safeEval "math.sqrt(4)" =
      .error (.safeEvalError "Only simple function calls are allowed.") ∧
    safeEval "True" = .ok 1 ∧
    safeEval "False" = .ok 0 := by
  refine ⟨?_, ?_, ?_, ?_, ?_, ?_, ?_, ?_, ?_, ?_, ?_⟩ <;> with_unfolding_all decide

/-- C4: evaluation follows conventional precedence, with the power
operator binding tighter than a unary minus on its left operand. -/
theorem C4_precedence :
    safeEval "-2**2" = .ok (-4) ∧
    safeEval "2+3*4" = .ok 14 ∧
    safeEval "(2+3)*4" = .ok 20 := by
  refine ⟨?_, ?_, ?_⟩ <;> with_unfolding_all decide

/-- C5: the claim that a failed evaluation sets only the error message is
false: the failure branch also clears the displayed result to None, so a
previously shown result does not survive a failed evaluation. -/
theorem C5_counterexample :
    (uiEvaluate ⟨"1/0", some "7", none, []⟩).error = some "division by zero" ∧
    (uiEvaluate ⟨"1/0", some "7", none, []⟩).result ≠
      (SessionState.mk "1/0" (some "7") none []).result := by
  refine ⟨?_, ?_⟩ <;> with_unfolding_all decide

/-- C5 (amended): on every failed evaluation the history list and the
expression text are left unchanged, no history entry is pushed, the result
field is cleared to None and the error message is set. -/
theorem C5_amended (st : SessionState)
    (h : ∃ ex, safeEval (String.mk (pyStrip st.expr.data)) = .error ex) :
    (uiEvaluate st).history = st.history ∧ (uiEvaluate st).expr = st.expr ∧
    (uiEvaluate st).result = none ∧ (uiEvaluate st).error.isSome = true := by
  obtain ⟨ex, hex⟩ := h
  simp only [uiEvaluate]
  split
  · exact ⟨rfl, rfl, rfl, rfl⟩
  · rw [hex]
    exact ⟨rfl, rfl, rfl, rfl⟩

theorem C5_amended_witness :
    (uiEvaluate ⟨"1/0", some "5", none, [("a", "b")]⟩).history =
      (SessionState.mk "1/0" (some "5") none [("a", "b")]).history ∧
    (uiEvaluate ⟨"1/0", some "5", none, [("a", "b")]⟩).expr =
      (SessionState.mk "1/0" (some "5") none [("a", "b")]).expr ∧
    (uiEvaluate ⟨"1/0", some "5", none, [("a", "b")]⟩).result = none ∧
    (uiEvaluate ⟨"1/0", some "5", none, [("a", "b")]⟩).error.isSome = true :=
  C5_amended ⟨"1/0", some "5", none, [("a", "b")]⟩
    ⟨.host (.zeroDivisionError "division by zero"), by with_unfolding_all decide⟩

/-- C6: after every evaluation the history holds at most 15 entries, and a
successful evaluation inserts its (expression, formatted result) pair at
the front, evicting from the back once 15 entries exist. -/
theorem C6_history (st : SessionState) (h : st.history.length ≤ 15) :
    (uiEvaluate st).history.length ≤ 15 ∧
    ∀ q : Rat, safeEval (String.mk (pyStrip st.expr.data)) = .ok q →
      (uiEvaluate st).history =
        ((String.mk (pyStrip st.expr.data), formatVal q) :: st.history).take 15 := by
  constructor
  · simp only [uiEvaluate]
    split
    · simpa using h
    · split
      · simp [List.length_take]
      · simpa using h
  · intro q hq
    simp only [uiEvaluate]
    split
    next hemp =>
      have h0 : pyStrip st.expr.data = [] := by
        simpa [List.isEmpty_iff] using hemp
      rw [h0] at hq
      have hval : safeEval (String.mk []) = .error (.safeEvalError "Empty expression.") := by
        with_unfolding_all decide
      rw [hval] at hq
      simp at hq
    · rw [hq]

theorem C6_history_witness :
    (uiEvaluate ⟨"1+1", none, none, []⟩).history.length ≤ 15 ∧
    (uiEvaluate ⟨"1+1", none, none, []⟩).history = [("1+1", "2")] :=
  have hc := C6_history ⟨"1+1", none, none, []⟩ (by decide)
  ⟨hc.1, by
    have h2 := hc.2 2 (by with_unfolding_all decide)
    rw [h2]
    with_unfolding_all decide⟩

/-- C7: evaluate is invariant under the unconditional textual substitution
of every caret by a double star, and the power alias gives
evaluate("2^10") = 1024, identical to evaluate("2**10"). -/
theorem C7_caret :
    (∀ s : String, safeEval (String.mk (replaceCaret s.data)) = safeEval s) ∧
    safeEval "2^10" = .ok 1024 ∧
    safeEval "2^10" = safeEval "2**10" := by
  refine ⟨fun s => ?_, by with_unfolding_all decide, by with_unfolding_all decide⟩
  show (safeEvalCore pyTables (replaceCaret s.data)).1 = (safeEvalCore pyTables s.data).1
  rw [safeEvalCore_caret]

/-- C8: evaluate is deterministic and does not mutate the allow-list
tables: running it leaves the threaded tables identical, and a second run
of the same expression from the resulting tables yields the same result. -/
theorem C8_pure (s : String) :
    (safeEvalCore pyTables s.data).2 = pyTables ∧
    (safeEvalCore (safeEvalCore pyTables s.data).2 s.data).1 =
      (safeEvalCore pyTables s.data).1 := by
  have h := safeEvalCore_snd pyTables s.data
  exact ⟨h, by rw [h]⟩

/-- C9: a double-star keyword-unpacking argument in a call is silently
discarded - the call evaluates exactly as if the argument were absent, its
expression never evaluated and never rejected - as witnessed concretely by
`sqrt(16, **bogus)` succeeding although `bogus` alone is rejected. -/
theorem C9_kwargs_discarded :
    (∀ (fuel : Nat) (t : Tables) (fn : PyAst) (args : List PyAst)
      (kws1 : List (Option String × PyAst)) (e : PyAst)
      (kws2 : List (Option String × PyAst)),
      evalAst fuel t (.call fn args (kws1 ++ (none, e) :: kws2)) =
      evalAst fuel t (.call fn args (kws1 ++ kws2))) ∧
    safeEval "sqrt(16, **bogus)" = .ok 4 ∧
    safeEval "bogus" = .error (.safeEvalError "Name \x27bogus\x27 is not allowed.") := by
  refine ⟨fun fuel t fn args kws1 e kws2 => evalAst_call_kwnone fuel t fn args kws1 e kws2,
    ?_, ?_⟩ <;> with_unfolding_all decide

/-- C10: whenever the computed value cannot be converted to a float, the
final conversion failure is caught and surfaced as the NonNumericResult
error "Could not compute result." - in particular for the huge integer
10**400 (float overflow) and the complex value of (-1)**0.5. -/
theorem C10_nonnumeric :
    (∀ (s : String) (a : PyAst) (v : PyVal) (t2 : Tables) (h : HostE),
      parsePy (replaceCaret (pyStrip s.data)) = .ok a →
      evalAst ((replaceCaret (pyStrip s.data)).length + 2) pyTables a = (.ok v, t2) →
      pyFloatConv v = .error h →
      (pyStrip s.data).isEmpty = false →
      safeEval s = .error (.safeEvalError "Could not compute result.")) ∧
    safeEval "10**400" = .error (.safeEvalError "Could not compute result.") ∧
    safeEval "(-1)**0.5" = .error (.safeEvalError "Could not compute result.") := by
  refine ⟨?_, by with_unfolding_all decide, by with_unfolding_all decide⟩
  intro s a v t2 h hp he hc hne
  simp only [safeEval, safeEvalCore, hne, hp, he, hc]
  rfl

theorem C10_nonnumeric_witness :
    pyFloatConv (.int (10 ^ 400)) =
      .error (.overflowError "int too large to convert to float") ∧
    safeEval "10**400" = .error (.safeEvalError "Could not compute result.") :=
  ⟨by with_unfolding_all decide,
   C10_nonnumeric.1 "10**400"
     (.binOp .pow (.const (.intC 10)) (.const (.intC 400)))
     (.int (10 ^ 400)) pyTables (.overflowError "int too large to convert to float")
     (by with_unfolding_all rfl) (by with_unfolding_all rfl)
     (by with_unfolding_all rfl) (by with_unfolding_all rfl)⟩
